import Mathlib

/-!
Shallow embedding of the voice-to-text plugin's format-resolution and
transcoding subsystem, together with proofs of its specified properties.

Files modelled:
* src/core/audio_format_detector.py (AudioFormatDetector)
* src/core/conversion_strategies.py (ConversionStrategyManager.convert_audio)
* src/core/ffmpeg_manager.py        (FFmpegManager.ffmpeg_path)
* src/core/temp_file_manager.py     (TempFileManager.cleanup_file / cleanup_all)
* src/utils/decorators.py           (cache_result)
* src/voice_file_resolver.py        (VoiceFileResolver strategies)

Modelling conventions: bytes are Nat values below 256; a filesystem is an
association list from path strings to file data; wall-clock time is a Nat
number of seconds; Python exceptions become explicit outcome constructors
or Option results; os.remove is modelled as always succeeding (the source
swallows removal errors and proceeds regardless).
-/

namespace VoiceToText

/-! ## Configuration (src/config.py) -/

/-- AudioProcessingConfig from src/config.py (the fields the detector uses). -/
structure AudioProcessingConfig where
  MAX_FILE_SIZE_MB : Nat := 25
  MIN_FILE_SIZE_BYTES : Nat := 100

/-- FFmpegConfig from src/config.py (the field the path cache uses). -/
structure FFmpegConfig where
  SEARCH_CACHE_TIMEOUT_SECONDS : Nat := 3600

/-! ## Audio format detector (src/core/audio_format_detector.py)

A file on disk is modelled by whether the path names a regular file
(os.path.isfile) plus its byte content; os.path.getsize is the content
length and read(12) is List.take 12.  A path that does not exist is the
`none` case of `Option FileEntry`. -/

/-- One filesystem entry: regular-file flag plus byte content. -/
structure FileEntry where
  isRegular : Bool
  content : List Nat
deriving DecidableEq

/-- Python `needle in hay` on byte strings: contiguous-substring test. -/
def bytesContain (needle : List Nat) : List Nat → Bool
  | [] => needle.isEmpty
  | b :: rest => needle.isPrefixOf (b :: rest) || bytesContain needle rest

/-- The `format_signatures` dict of AudioFormatDetector.__init__, in
insertion order (Python dicts iterate in insertion order). -/
def format_signatures : List (List Nat × String) :=
  [ ([35, 33, 65, 77, 82, 10], "amr"),
    ([35, 33, 65, 77, 82], "amr"),
    ([2, 35, 33, 83, 73, 76, 75, 95, 86, 51], "silk"),
    ([73, 68, 51], "mp3"),
    ([255, 251], "mp3"),
    ([255, 243], "mp3"),
    ([82, 73, 70, 70], "wav"),
    ([79, 103, 103, 83], "ogg"),
    ([102, 76, 97, 67], "flac") ]

/-- The byte string WAVE. -/
def waveBytes : List Nat := [87, 65, 86, 69]

/-- The signature loop of _identify_format_by_header: first signature that
is a prefix of the header wins, except that a RIFF match is skipped when
WAVE does not occur in the header. -/
def findSignature : List (List Nat × String) → List Nat → Option String
  | [], _ => none
  | (sig, fmt) :: rest, header =>
    if sig.isPrefixOf header then
      if fmt == "wav" && !(bytesContain waveBytes header) then
        findSignature rest header
      else
        some fmt
    else
      findSignature rest header

/-- AudioFormatDetector._identify_format_by_header: signature table first,
then the extra check of header[0:2] against the two bare-MP3 frame syncs. -/
def identify_format_by_header (header : List Nat) : Option String :=
  match findSignature format_signatures header with
  | some fmt => some fmt
  | none =>
    if header.take 2 == [255, 251] || header.take 2 == [255, 243] then
      some "mp3"
    else
      none

/-- AudioFormatDetector.validate_file: exists, is a regular file, size
nonzero, size within [MIN_FILE_SIZE_BYTES, MAX_FILE_SIZE_MB MiB], and the
12-byte header read returns at least 5 bytes.  The Python early-return
chain is the conjunction of the negated failure conditions. -/
def validate_file (cfg : AudioProcessingConfig) (e : Option FileEntry) : Bool :=
  match e with
  | none => false
  | some f =>
    f.isRegular
      && !(f.content.length == 0)
      && !(f.content.length < cfg.MIN_FILE_SIZE_BYTES)
      && !(cfg.MAX_FILE_SIZE_MB * 1024 * 1024 < f.content.length)
      && !((f.content.take 12).length < 5)

/-- AudioFormatDetector.detect_format (body, without the cache decorator):
invalid files map to "invalid", then the first 12 bytes are matched; no
match yields "unknown".  All exception paths of the source return
"invalid", so the model is a total function. -/
def detect_format (cfg : AudioProcessingConfig) (e : Option FileEntry) : String :=
  match e with
  | none => "invalid"
  | some f =>
    if validate_file cfg (some f) then
      match identify_format_by_header (f.content.take 12) with
      | some fmt => fmt
      | none => "unknown"
    else
      "invalid"

/-! ## Result cache (src/utils/decorators.py, cache_result)

The decorator keeps a dict from cache key to (result, store-time).  For a
fixed decorated bound method and a fixed path argument the key is a fixed
string, so the model keys the cache by the path directly (assuming no hash
collision between distinct argument tuples). -/

/-- One cache entry of the cache_result decorator. -/
structure CacheEntry (α : Type) where
  key : String
  result : α
  time : Nat
deriving DecidableEq

/-- The dict backing one cache_result decorator instance. -/
abbrev Cache (α : Type) := List (CacheEntry α)

/-- Python `cache_key in cache` / `cache[cache_key]` lookup. -/
def cacheFind (k : String) (c : Cache α) : Option (α × Nat) :=
  (c.find? (fun e => e.key == k)).map (fun e => (e.result, e.time))

/-- Python dict assignment cache[k] = (v, t). -/
def cacheStore (k : String) (v : α) (t : Nat) (c : Cache α) : Cache α :=
  ⟨k, v, t⟩ :: c.filter (fun e => e.key != k)

/-- The expired-entry sweep at the end of the wrapper: delete every entry
with current_time - stored_time >= ttl. -/
def cachePurge (ttl now : Nat) (c : Cache α) : Cache α :=
  c.filter (fun e => now - e.time < ttl)

/-- One call through the cache_result wrapper.  `fresh` is the value the
wrapped coroutine would compute right now (it is consulted only on a cache
miss or an expired entry). -/
def cache_result_call (ttl : Nat) (k : String) (fresh : α) (now : Nat)
    (c : Cache α) : α × Cache α :=
  match cacheFind k c with
  | some (res, t) =>
    if now - t < ttl then
      (res, c)
    else
      (fresh, cachePurge ttl now (cacheStore k fresh now c))
  | none => (fresh, cachePurge ttl now (cacheStore k fresh now c))

/-- detect_format as decorated with cache_result(ttl_seconds=300): `file`
is the file currently on disk at `path`, consulted only on a cache miss. -/
def detect_format_cached (cfg : AudioProcessingConfig) (file : Option FileEntry)
    (path : String) (now : Nat) (c : Cache String) : String × Cache String :=
  cache_result_call 300 path (detect_format cfg file) now c

/-! ## Conversion strategy engine (src/core/conversion_strategies.py)

convert_audio only ever inspects the filesystem at the output path, but the
model carries a whole association list from paths to sizes so that "no file
is created anywhere" is expressible.  A strategy's convert call is an
oracle: given the filesystem it sees, it either raises or returns a bool,
in both cases leaving a new filesystem. -/

/-- Filesystem for the conversion engine: path to file size. -/
abbrev Fs := List (String × Nat)

/-- os.path.getsize at a path (none when the path does not exist). -/
def Fs.sizeAt (p : String) (fs : Fs) : Option Nat :=
  (fs.find? (fun e => e.1 == p)).map (fun e => e.2)

/-- os.path.exists at a path. -/
def Fs.pathExists (p : String) (fs : Fs) : Bool :=
  (Fs.sizeAt p fs).isSome

/-- os.remove at a path (no-op when absent; the source wraps removal in
try/except and proceeds even if it fails, so the model makes it total). -/
def Fs.removePath (p : String) (fs : Fs) : Fs :=
  fs.filter (fun e => e.1 != p)

/-- Outcome of one strategy.convert call: the coroutine either raises an
exception or returns a bool, and in both cases may have changed the
filesystem. -/
inductive ConvOutcome where
  | raises (fs : Fs)
  | returns (ok : Bool) (fs : Fs)
deriving DecidableEq

/-- One ConversionStrategy as the engine sees it: its can_handle answer per
format pair and its convert behaviour as a function of the filesystem it
is run on. -/
structure Strategy where
  canHandle : String → String → Bool
  convert : Fs → ConvOutcome

/-- The engine's output check: os.path.exists(output_path) and
os.path.getsize(output_path) > 0. -/
def validOutput (out : String) (fs : Fs) : Bool :=
  match Fs.sizeAt out fs with
  | some sz => decide (0 < sz)
  | none => false

/-- ConversionStrategyManager.convert_audio: try each strategy in order;
skip it when can_handle is false; otherwise delete any stale output file,
run convert, and accept only a true return whose output file exists and is
non-empty; on an exception or an invalid result delete the output file and
continue; return false when the strategies are exhausted. -/
def convert_audio : List Strategy → String → String → String → Fs → Bool × Fs
  | [], _, _, _, fs => (false, fs)
  | s :: rest, out, infmt, outfmt, fs =>
    if s.canHandle infmt outfmt then
      match s.convert (Fs.removePath out fs) with
      | .raises fs2 =>
        convert_audio rest out infmt outfmt (Fs.removePath out fs2)
      | .returns ok fs2 =>
        if ok && validOutput out fs2 then
          (true, fs2)
        else
          convert_audio rest out infmt outfmt (Fs.removePath out fs2)
    else
      convert_audio rest out infmt outfmt fs

/-- Predicate tracing one convert_audio run: every strategy that claims the
pair either raises or returns an outcome failing the validity check (the
run never produces a valid output file). -/
def allAttemptsFail : List Strategy → String → String → String → Fs → Bool
  | [], _, _, _, _ => true
  | s :: rest, out, infmt, outfmt, fs =>
    if s.canHandle infmt outfmt then
      match s.convert (Fs.removePath out fs) with
      | .raises fs2 => allAttemptsFail rest out infmt outfmt (Fs.removePath out fs2)
      | .returns ok fs2 =>
        !(ok && validOutput out fs2)
          && allAttemptsFail rest out infmt outfmt (Fs.removePath out fs2)
    else
      allAttemptsFail rest out infmt outfmt fs

/-! ## FFmpeg manager path cache (src/core/ffmpeg_manager.py) -/

/-- The cache fields of an FFmpegManager instance. -/
structure FFmpegState where
  ffmpegPath : Option String
  searchAttempted : Bool
  lastSearchTime : Nat
deriving DecidableEq

/-- One read of the FFmpegManager.ffmpeg_path property.  `discovered` is
what _find_ffmpeg_executable would return against the current filesystem;
it is consulted only when the cache is absent or expired. -/
def ffmpeg_path_read (cfg : FFmpegConfig) (discovered : Option String)
    (now : Nat) (st : FFmpegState) : Option String × FFmpegState :=
  if st.searchAttempted
      && decide (now - st.lastSearchTime < cfg.SEARCH_CACHE_TIMEOUT_SECONDS) then
    (st.ffmpegPath, st)
  else
    (discovered,
      { ffmpegPath := discovered, searchAttempted := true, lastSearchTime := now })

/-! ## Temp file manager (src/core/temp_file_manager.py)

Only existence matters for the cleanup claims, so the filesystem is the
list of existing paths. -/

/-- Tracked-file list plus the set of paths existing on disk. -/
structure TempState where
  tempFiles : List String
  fs : List String
deriving DecidableEq

/-- TempFileManager.cleanup_file: remove the file if it exists (removal
failures are swallowed; the model removes unconditionally). -/
def cleanup_file (fs : List String) (p : String) : List String :=
  fs.filter (fun q => q != p)

/-- The loop of TempFileManager.cleanup_all: iterate over a copy of the
tracked list, delete each file, and list.remove it from the live list. -/
def cleanup_all_loop : List String → List String → List String → List String × List String
  | [], live, fs => (live, fs)
  | p :: rest, live, fs => cleanup_all_loop rest (live.erase p) (cleanup_file fs p)

/-- TempFileManager.cleanup_all. -/
def cleanup_all (st : TempState) : TempState :=
  let r := cleanup_all_loop st.tempFiles st.tempFiles st.fs
  { tempFiles := r.1, fs := r.2 }

/-- TempFileManager.get_managed_files_count. -/
def get_managed_files_count (st : TempState) : Nat :=
  st.tempFiles.length

/-! ## Voice file resolver (src/voice_file_resolver.py) -/

/-- Python str.startswith. -/
def startswith (pre s : String) : Bool :=
  pre.data.isPrefixOf s.data

/-- VoiceFileResolver._strategy_file_attribute.  `ex` is os.path.exists,
`abspath` is os.path.abspath, `download` models the download_image_by_url
call on HTTP(S) values, and `base64Save` models the decode-and-write-temp-
file branch for base64:// values; both oracles return none on the
exception path. -/
def strategy_file_attribute (ex : String → Bool) (abspath : String → String)
    (download : String → Option String) (base64Save : String → Option String)
    (file : String) : Option String :=
  if file.data.isEmpty then
    none
  else if ex file then
    some (abspath file)
  else if startswith "file:///" file && ex (file.drop 8) then
    some (file.drop 8)
  else if startswith "http://" file || startswith "https://" file then
    match download file with
    | some p => some p
    | none =>
      if startswith "base64://" file then base64Save (file.drop 9) else none
  else if startswith "base64://" file then
    base64Save (file.drop 9)
  else
    none

/-- Membership of a character in the standard base64 alphabet. -/
def isB64Alpha (c : Char) : Bool :=
  (65 ≤ c.toNat && c.toNat ≤ 90)
    || (97 ≤ c.toNat && c.toNat ≤ 122)
    || (48 ≤ c.toNat && c.toNat ≤ 57)
    || c == Char.ofNat 43
    || c == Char.ofNat 47

/-- Value of one base64 alphabet character (0 for characters outside the
alphabet; never reached on alphabet-only input). -/
def b64Sextet (c : Char) : Nat :=
  if 65 ≤ c.toNat && c.toNat ≤ 90 then c.toNat - 65
  else if 97 ≤ c.toNat && c.toNat ≤ 122 then c.toNat - 97 + 26
  else if 48 ≤ c.toNat && c.toNat ≤ 57 then c.toNat - 48 + 52
  else if c.toNat == 43 then 62
  else if c.toNat == 47 then 63
  else 0

/-- Decode complete 4-character base64 groups into bytes. -/
def b64DecodeGroups : List Char → List Nat
  | a :: b :: c :: d :: rest =>
    let n := b64Sextet a * 262144 + b64Sextet b * 4096 + b64Sextet c * 64 + b64Sextet d
    (n / 65536) :: (n / 256 % 256) :: (n % 256) :: b64DecodeGroups rest
  | _ => []

/-- Model of Python base64.b64decode restricted to inputs over the standard
base64 alphabet without padding characters: such an input decodes exactly
when its length is a multiple of 4, and raises binascii.Error (the none
case) otherwise. -/
def b64decode (s : List Char) : Option (List Nat) :=
  if s.length % 4 == 0 then some (b64DecodeGroups s) else none

/-- VoiceFileResolver._detect_audio_extension_from_base64: decode the first
50 characters and match the decoded header against the known signatures;
any exception (in particular a failed decode) yields the default
extension. -/
def detect_audio_extension_from_base64 (base64_data : List Char) : String :=
  match b64decode (base64_data.take 50) with
  | none => ".audio"
  | some hdr =>
    if List.isPrefixOf [35, 33, 65, 77, 82] hdr then ".amr"
    else if List.isPrefixOf [82, 73, 70, 70] hdr then ".wav"
    else if List.isPrefixOf [73, 68, 51] hdr
        || hdr.take 2 == [255, 251] || hdr.take 2 == [255, 243] then ".mp3"
    else if List.isPrefixOf [79, 103, 103, 83] hdr then ".ogg"
    else if List.isPrefixOf [2, 35, 33, 83, 73, 76, 75, 95, 86, 51] hdr then ".silk"
    else ".audio"

/-! ## Concrete instances used to exercise the theorems -/

/-- A strategy that claims every pair and always raises, leaving the
filesystem as it found it. -/
def stratAlwaysRaise : Strategy :=
  { canHandle := fun _ _ => true, convert := fun fs => .raises fs }

/-- A strategy that claims every pair and succeeds, producing a 3-byte
output file. -/
def stratOk : Strategy :=
  { canHandle := fun _ _ => true, convert := fun _ => .returns true [("out.mp3", 3)] }

/-- A strategy that declines every pair. -/
def stratNever : Strategy :=
  { canHandle := fun _ _ => false, convert := fun fs => .returns true fs }

/-- An existence oracle for a filesystem holding exactly /tmp/a.wav. -/
def exOnlyTmp : String → Bool := fun s => s == "/tmp/a.wav"

/-- An existence oracle for a filesystem holding exactly the relative path
data/v.wav. -/
def exOnlyData : String → Bool := fun s => s == "data/v.wav"

/-- A valid 100-byte file of zero bytes (matches no signature). -/
def zeroFile : FileEntry :=
  { isRegular := true, content := List.replicate 100 0 }

/-! ## Theorems -/

/-- C3: for every existing regular file whose size is within the configured
bounds, whose 12-byte header read returns at least 5 bytes, and whose header
matches none of the known signatures, detect_format returns "unknown" (in
particular not "invalid"; the model is a total function, so no exception is
possible). -/
theorem detect_format_unmatched_unknown (cfg : AudioProcessingConfig) (f : FileEntry)
    (h1 : f.isRegular = true)
    (h2 : 0 < f.content.length)
    (h3 : cfg.MIN_FILE_SIZE_BYTES ≤ f.content.length)
    (h4 : f.content.length ≤ cfg.MAX_FILE_SIZE_MB * 1024 * 1024)
    (h5 : 5 ≤ (f.content.take 12).length)
    (h6 : identify_format_by_header (f.content.take 12) = none) :
    detect_format cfg (some f) = "unknown" := by
  have hv : validate_file cfg (some f) = true := by
    simp only [List.length_take] at h5
    have hnil : ¬ f.content = [] := by
      intro hnil
      rw [hnil] at h2
      exact absurd h2 (by decide)
    have h5len : 5 ≤ f.content.length := le_trans h5 (min_le_right 12 f.content.length)
    simp [validate_file, h1, hnil, h3, h4, h5len]
  simp [detect_format, hv, h6]

/-- C3 witness: a 100-byte all-zero regular file under the default
configuration is classified "unknown". -/
theorem detect_format_unmatched_unknown_witness :
    detect_format {} (some zeroFile) = "unknown" :=
  detect_format_unmatched_unknown {} zeroFile rfl (by decide) (by decide) (by decide)
    (by decide) (by decide)

/-- C5: a 12-byte header beginning with RIFF is classified wav exactly when
the bytes WAVE occur somewhere within it; without WAVE the RIFF match is
skipped and (no other signature being able to match a header that starts
with RIFF) the result is not wav. -/
theorem riff_header_wav_iff_wave (header : List Nat)
    (hlen : header.length = 12)
    (hriff : List.isPrefixOf [82, 73, 70, 70] header = true) :
    identify_format_by_header header =
      (if bytesContain waveBytes header then some "wav" else none) := by
  rcases header with _ | ⟨a, _ | ⟨b, _ | ⟨c, _ | ⟨d, t⟩⟩⟩⟩ <;>
    simp [List.isPrefixOf] at hriff
  obtain ⟨rfl, rfl, rfl, rfl⟩ := hriff
  by_cases hw : bytesContain waveBytes (82 :: 73 :: 70 :: 70 :: t) = true
  · simp [identify_format_by_header, findSignature, format_signatures,
      List.isPrefixOf, hw]
  · rw [Bool.not_eq_true] at hw
    simp [identify_format_by_header, findSignature, format_signatures,
      List.isPrefixOf, hw]

/-- C5 witness: a concrete RIFF....WAVE header is classified wav. -/
theorem riff_header_wav_iff_wave_witness :
    identify_format_by_header [82, 73, 70, 70, 0, 0, 0, 0, 87, 65, 86, 69] =
      (if bytesContain waveBytes [82, 73, 70, 70, 0, 0, 0, 0, 87, 65, 86, 69]
       then some "wav" else none) :=
  riff_header_wav_iff_wave [82, 73, 70, 70, 0, 0, 0, 0, 87, 65, 86, 69]
    (by decide) (by decide)

/-- C10: for every base64 payload of at least 50 standard-alphabet
characters, _detect_audio_extension_from_base64 returns the default
extension ".audio", because the decoded 50-character prefix has length not
divisible by 4 and so base64.b64decode raises a padding error. -/
theorem base64_extension_always_default (base64_data : List Char)
    (_halpha : ∀ c ∈ base64_data, isB64Alpha c = true)
    (hlen : 50 ≤ base64_data.length) :
    detect_audio_extension_from_base64 base64_data = ".audio" := by
  have ht : (base64_data.take 50).length = 50 := by
    simp only [List.length_take]
    omega
  have hdec : b64decode (base64_data.take 50) = none := by
    simp [b64decode, ht]
  simp [detect_audio_extension_from_base64, hdec]

/-- C10 witness: fifty capital-A characters (a plain base64 payload) yield
the default extension. -/
theorem base64_extension_always_default_witness :
    detect_audio_extension_from_base64 (List.replicate 50 (Char.ofNat 65)) = ".audio" :=
  base64_extension_always_default (List.replicate 50 (Char.ofNat 65))
    (by decide) (by decide)

/-- Removing the output path really removes it: lookup afterwards fails. -/
theorem sizeAt_removePath_self (p : String) (fs : Fs) :
    Fs.sizeAt p (Fs.removePath p fs) = none := by
  induction fs with
  | nil => rfl
  | cons e rest ih =>
    rw [Fs.removePath, List.filter_cons]
    by_cases h : e.1 = p
    · simp only [h, bne_self_eq_false]
      exact ih
    · have hne : (e.1 != p) = true := by simpa using h
      simp only [hne, if_true]
      rw [Fs.sizeAt, List.find?_cons]
      have : (e.1 == p) = false := by simpa using h
      simp only [this]
      exact ih

/-- After Fs.removePath the path no longer exists. -/
theorem pathExists_removePath_self (p : String) (fs : Fs) :
    Fs.pathExists p (Fs.removePath p fs) = false := by
  rw [Fs.pathExists, sizeAt_removePath_self]
  rfl

/-- When every attempted strategy of a run raises or returns an invalid
outcome, the engine returns false. -/
theorem convert_audio_false_of_allAttemptsFail
    (strats : List Strategy) (out infmt outfmt : String) :
    ∀ fs, allAttemptsFail strats out infmt outfmt fs = true →
      (convert_audio strats out infmt outfmt fs).1 = false := by
  induction strats with
  | nil => intro fs _; rfl
  | cons s rest ih =>
    intro fs h
    by_cases hc : s.canHandle infmt outfmt = true
    · cases hcv : s.convert (Fs.removePath out fs) with
      | raises fs2 =>
        simp only [allAttemptsFail, hc, if_true, hcv] at h
        simp only [convert_audio, hc, if_true, hcv]
        exact ih _ h
      | returns ok fs2 =>
        cases hok : ok && validOutput out fs2
        · simp [allAttemptsFail, hc, hcv, hok] at h
          simp [convert_audio, hc, hcv, hok]
          exact ih _ h
        · simp [allAttemptsFail, hc, hcv, hok] at h
    · rw [Bool.not_eq_true] at hc
      simp only [allAttemptsFail, hc, Bool.false_eq_true, if_false] at h
      simp only [convert_audio, hc, Bool.false_eq_true, if_false]
      exact ih _ h

/-- Whenever the engine reports success, the final filesystem holds a
non-empty file at the output path. -/
theorem convert_audio_true_validOutput
    (strats : List Strategy) (out infmt outfmt : String) :
    ∀ fs, (convert_audio strats out infmt outfmt fs).1 = true →
      validOutput out (convert_audio strats out infmt outfmt fs).2 = true := by
  induction strats with
  | nil => intro fs h; simp [convert_audio] at h
  | cons s rest ih =>
    intro fs h
    by_cases hc : s.canHandle infmt outfmt = true
    · cases hcv : s.convert (Fs.removePath out fs) with
      | raises fs2 =>
        simp only [convert_audio, hc, if_true, hcv] at h ⊢
        exact ih _ h
      | returns ok fs2 =>
        cases hok : ok && validOutput out fs2
        · simp [convert_audio, hc, hcv, hok] at h ⊢
          exact ih _ h
        · simp [convert_audio, hc, hcv, hok] at h ⊢
          exact ((Bool.and_eq_true ok (validOutput out fs2)).mp hok).2
    · rw [Bool.not_eq_true] at hc
      simp only [convert_audio, hc, Bool.false_eq_true, if_false] at h ⊢
      exact ih _ h

/-- C1: when a capable strategy's convert raises, convert_audio deletes the
output file and proceeds exactly as the run over the remaining strategies
would on the cleaned filesystem; and any run in which every attempted
strategy fails returns false (the model is a total function, so no
exception escapes). -/
theorem convert_audio_exception_recovery
    (s : Strategy) (rest strats : List Strategy) (out infmt outfmt : String)
    (fs fs2 fsb : Fs)
    (hc : s.canHandle infmt outfmt = true)
    (hr : s.convert (Fs.removePath out fs) = .raises fs2)
    (hall : allAttemptsFail strats out infmt outfmt fsb = true) :
    convert_audio (s :: rest) out infmt outfmt fs
        = convert_audio rest out infmt outfmt (Fs.removePath out fs2)
      ∧ Fs.pathExists out (Fs.removePath out fs2) = false
      ∧ (convert_audio strats out infmt outfmt fsb).1 = false := by
  refine ⟨?_, ?_, ?_⟩
  · simp only [convert_audio, hc, if_true, hr]
  · exact pathExists_removePath_self out fs2
  · exact convert_audio_false_of_allAttemptsFail strats out infmt outfmt fsb hall

/-- C1 witness: a single always-raising strategy on a stale output file. -/
theorem convert_audio_exception_recovery_witness :
    convert_audio [stratAlwaysRaise] "out.mp3" "silk" "mp3" [("out.mp3", 7)]
        = convert_audio [] "out.mp3" "silk" "mp3"
            (Fs.removePath "out.mp3" [("out.mp3", 7)])
      ∧ Fs.pathExists "out.mp3" (Fs.removePath "out.mp3" [("out.mp3", 7)]) = false
      ∧ (convert_audio [stratAlwaysRaise] "out.mp3" "silk" "mp3" []).1 = false :=
  convert_audio_exception_recovery stratAlwaysRaise [] [stratAlwaysRaise]
    "out.mp3" "silk" "mp3" [("out.mp3", 7)]
    (Fs.removePath "out.mp3" [("out.mp3", 7)]) [] rfl rfl (by decide)

/-- C2: after a capable strategy's convert returns, the engine accepts (and
returns true with that filesystem) exactly when the returned flag is true
and the output file exists with non-zero size; otherwise it removes the
output file and continues with the next strategy.  Moreover any run that
reports success ends with a valid output file. -/
theorem convert_audio_requires_valid_output
    (s : Strategy) (rest strats2 : List Strategy) (out infmt outfmt : String)
    (fs fs2 fsb : Fs) (ok : Bool)
    (hc : s.canHandle infmt outfmt = true)
    (hr : s.convert (Fs.removePath out fs) = .returns ok fs2)
    (htrue : (convert_audio strats2 out infmt outfmt fsb).1 = true) :
    convert_audio (s :: rest) out infmt outfmt fs
        = (if ok && validOutput out fs2 then (true, fs2)
           else convert_audio rest out infmt outfmt (Fs.removePath out fs2))
      ∧ validOutput out (convert_audio strats2 out infmt outfmt fsb).2 = true := by
  constructor
  · simp only [convert_audio, hc, if_true, hr]
  · exact convert_audio_true_validOutput strats2 out infmt outfmt fsb htrue

/-- C2 witness: a succeeding strategy producing a 3-byte output file. -/
theorem convert_audio_requires_valid_output_witness :
    convert_audio [stratOk] "out.mp3" "silk" "mp3" []
        = (if true && validOutput "out.mp3" [("out.mp3", 3)]
           then (true, ([("out.mp3", 3)] : Fs))
           else convert_audio [] "out.mp3" "silk" "mp3"
             (Fs.removePath "out.mp3" [("out.mp3", 3)]))
      ∧ validOutput "out.mp3" (convert_audio [stratOk] "out.mp3" "silk" "mp3" []).2 = true :=
  convert_audio_requires_valid_output stratOk [] [stratOk] "out.mp3" "silk" "mp3"
    [] [("out.mp3", 3)] [] true rfl rfl (by decide)

/-- C4: when no registered strategy can handle the format pair,
convert_audio returns false and leaves the filesystem exactly as it was
(in particular no file is created at the output path); since the result
does not depend on any convert field, no convert method is invoked. -/
theorem convert_audio_no_capable_strategy
    (strats : List Strategy) (out infmt outfmt : String) (fs : Fs)
    (h : ∀ s ∈ strats, s.canHandle infmt outfmt = false) :
    convert_audio strats out infmt outfmt fs = (false, fs) := by
  induction strats with
  | nil => rfl
  | cons s rest ih =>
    have hs : s.canHandle infmt outfmt = false := h s (List.mem_cons_self s rest)
    simp only [convert_audio, hs, Bool.false_eq_true, if_false]
    exact ih (fun t ht => h t (List.mem_cons_of_mem s ht))

/-- C4 witness: a single declining strategy; the input file is untouched
and no output appears. -/
theorem convert_audio_no_capable_strategy_witness :
    convert_audio [stratNever] "out.mp3" "silk" "mp3" [("in.silk", 9)]
      = (false, [("in.silk", 9)]) :=
  convert_audio_no_capable_strategy [stratNever] "out.mp3" "silk" "mp3" [("in.silk", 9)]
    (by
      intro t ht
      rw [List.mem_singleton] at ht
      subst ht
      rfl)

/-- C6 counterexample: the URI file:///tmp/a.wav names the existing file
/tmp/a.wav, yet _strategy_file_attribute returns None, because the code
strips all 8 characters of file:/// (including the leading slash of the
absolute path) and then probes the cwd-relative path tmp/a.wav, which does
not exist in this environment. -/
theorem file_uri_not_resolved_cex :
    exOnlyTmp "/tmp/a.wav" = true
      ∧ strategy_file_attribute exOnlyTmp (fun s => s) (fun _ => none) (fun _ => none)
          "file:///tmp/a.wav" = none := by
  constructor
  · rfl
  · rfl

/-- C6 amended: for a file attribute starting with file:/// (so in
particular non-empty) that does not itself exist as a path, the strategy
returns the remainder after stripping the 8-character file:/// scheme
whenever that remainder names an existing file; for a POSIX absolute-path
URI the stripped remainder lacks the leading slash, so resolution succeeds
only when that cwd-relative path exists. -/
theorem file_uri_resolves_stripped_path
    (ex : String → Bool) (abspath : String → String)
    (download base64Save : String → Option String) (file : String)
    (h1 : startswith "file:///" file = true)
    (h2 : ex file = false)
    (h3 : ex (file.drop 8) = true) :
    strategy_file_attribute ex abspath download base64Save file
      = some (file.drop 8) := by
  have hne : file.data.isEmpty = false := by
    cases hd : file.data with
    | nil =>
      rw [startswith, hd] at h1
      exact absurd h1 (by decide)
    | cons c cs => simp [hd]
  simp [strategy_file_attribute, hne, h2, h1, h3]

/-- C6 amended witness: file:///data/v.wav resolves to the relative path
data/v.wav when that relative path exists. -/
theorem file_uri_resolves_stripped_path_witness :
    strategy_file_attribute exOnlyData (fun s => s) (fun _ => none) (fun _ => none)
        "file:///data/v.wav" = some ("file:///data/v.wav".drop 8) :=
  file_uri_resolves_stripped_path exOnlyData (fun s => s) (fun _ => none) (fun _ => none)
    "file:///data/v.wav" (by decide) (by decide) (by decide)

/-- cleanup_file never leaves the removed path behind. -/
theorem not_mem_cleanup_file_self (fs : List String) (p : String) :
    p ∉ cleanup_file fs p := by
  intro h
  rw [cleanup_file, List.mem_filter] at h
  exact absurd h.2 (by simp)

/-- cleanup_file introduces no path. -/
theorem not_mem_cleanup_file (fs : List String) (p q : String) (h : q ∉ fs) :
    q ∉ cleanup_file fs p := by
  intro hq
  rw [cleanup_file, List.mem_filter] at hq
  exact h hq.1

/-- A path absent from the filesystem stays absent through any sequence of
cleanup_file calls. -/
theorem not_mem_foldl_cleanup_of_not_mem (copy : List String) :
    ∀ fs (p : String), p ∉ fs → p ∉ copy.foldl cleanup_file fs := by
  induction copy with
  | nil => intro fs p h; exact h
  | cons q rest ih =>
    intro fs p h
    exact ih _ _ (not_mem_cleanup_file fs q p h)

/-- Every path in the processed list is gone from the filesystem after the
fold of cleanup_file calls. -/
theorem not_mem_foldl_cleanup_of_mem (copy : List String) :
    ∀ fs (p : String), p ∈ copy → p ∉ copy.foldl cleanup_file fs := by
  induction copy with
  | nil => intro fs p h; exact absurd h (List.not_mem_nil p)
  | cons q rest ih =>
    intro fs p h
    rcases List.mem_cons.mp h with rfl | hmem
    · exact not_mem_foldl_cleanup_of_not_mem rest _ p (not_mem_cleanup_file_self fs p)
    · exact ih _ _ hmem

/-- The filesystem component of the cleanup loop is the fold of
cleanup_file over the copied list. -/
theorem cleanup_all_loop_snd (copy : List String) :
    ∀ live fs, (cleanup_all_loop copy live fs).2 = copy.foldl cleanup_file fs := by
  induction copy with
  | nil => intro live fs; rfl
  | cons p rest ih => intro live fs; exact ih _ _

/-- Iterating over a copy of the live list and list.remove-ing each element
empties the live list. -/
theorem cleanup_all_loop_fst_self (copy : List String) :
    ∀ fs, (cleanup_all_loop copy copy fs).1 = [] := by
  induction copy with
  | nil => intro fs; rfl
  | cons p rest ih =>
    intro fs
    rw [cleanup_all_loop, List.erase_cons_head]
    exact ih _

/-- C7: after cleanup_all the tracked-file count is zero and no file
tracked at the moment of the call still exists on disk. -/
theorem cleanup_all_clears_everything (st : TempState) (p : String)
    (hp : p ∈ st.tempFiles) :
    get_managed_files_count (cleanup_all st) = 0
      ∧ p ∉ (cleanup_all st).fs := by
  constructor
  · rw [get_managed_files_count, cleanup_all]
    rw [cleanup_all_loop_fst_self st.tempFiles st.fs]
    rfl
  · rw [cleanup_all]
    rw [cleanup_all_loop_snd st.tempFiles st.tempFiles st.fs]
    exact not_mem_foldl_cleanup_of_mem st.tempFiles st.fs p hp

/-- C7 witness: two tracked files on a disk that also holds an untracked
file. -/
theorem cleanup_all_clears_everything_witness :
    get_managed_files_count (cleanup_all
        { tempFiles := ["a.tmp", "b.tmp"], fs := ["a.tmp", "b.tmp", "keep.txt"] }) = 0
      ∧ "a.tmp" ∉ (cleanup_all
          { tempFiles := ["a.tmp", "b.tmp"], fs := ["a.tmp", "b.tmp", "keep.txt"] }).fs :=
  cleanup_all_clears_everything
    { tempFiles := ["a.tmp", "b.tmp"], fs := ["a.tmp", "b.tmp", "keep.txt"] }
    "a.tmp" (by decide)

/-- C8: once a search has completed, every read of ffmpeg_path within the
cache TTL returns the cached value unchanged (including a cached None),
whatever discovery would now find; a read at or past the TTL re-runs
discovery and returns its fresh result. -/
theorem ffmpeg_path_cache_stability
    (cfg : FFmpegConfig) (st : FFmpegState) (d1 d2 d3 : Option String)
    (t1 t2 t3 : Nat)
    (hs : st.searchAttempted = true)
    (h1 : t1 - st.lastSearchTime < cfg.SEARCH_CACHE_TIMEOUT_SECONDS)
    (h2 : t2 - st.lastSearchTime < cfg.SEARCH_CACHE_TIMEOUT_SECONDS)
    (h3 : cfg.SEARCH_CACHE_TIMEOUT_SECONDS ≤ t3 - st.lastSearchTime) :
    ffmpeg_path_read cfg d1 t1 st = (st.ffmpegPath, st)
      ∧ ffmpeg_path_read cfg d2 t2 st = (st.ffmpegPath, st)
      ∧ ffmpeg_path_read cfg d3 t3 st
          = (d3, { ffmpegPath := d3, searchAttempted := true, lastSearchTime := t3 }) := by
  refine ⟨?_, ?_, ?_⟩
  · simp [ffmpeg_path_read, hs, h1]
  · simp [ffmpeg_path_read, hs, h2]
  · simp [ffmpeg_path_read, Nat.not_lt.mpr h3]

/-- C8 witness: a cached None result under the default 3600 s TTL survives
two in-window reads against filesystems where ffmpeg is now present, and an
out-of-window read picks up the new discovery. -/
theorem ffmpeg_path_cache_stability_witness :
    ffmpeg_path_read {} (some "/usr/bin/ffmpeg") 200
        { ffmpegPath := none, searchAttempted := true, lastSearchTime := 100 }
      = (none, { ffmpegPath := none, searchAttempted := true, lastSearchTime := 100 })
      ∧ ffmpeg_path_read {} none 300
          { ffmpegPath := none, searchAttempted := true, lastSearchTime := 100 }
        = (none, { ffmpegPath := none, searchAttempted := true, lastSearchTime := 100 })
      ∧ ffmpeg_path_read {} (some "/opt/ffmpeg/bin/ffmpeg") 4000
          { ffmpegPath := none, searchAttempted := true, lastSearchTime := 100 }
        = (some "/opt/ffmpeg/bin/ffmpeg",
            { ffmpegPath := some "/opt/ffmpeg/bin/ffmpeg", searchAttempted := true,
              lastSearchTime := 4000 }) :=
  ffmpeg_path_cache_stability {}
    { ffmpegPath := none, searchAttempted := true, lastSearchTime := 100 }
    (some "/usr/bin/ffmpeg") none (some "/opt/ffmpeg/bin/ffmpeg")
    200 300 4000 rfl (by decide) (by decide) (by decide)

/-- An entry freshly stored by the cache wrapper survives the purge and is
found again. -/
theorem cacheFind_store_purge (k : String) (v : α) (t ttl : Nat) (c : Cache α)
    (h : 0 < ttl) :
    cacheFind k (cachePurge ttl t (cacheStore k v t c)) = some (v, t) := by
  rw [cacheStore, cachePurge, List.filter_cons]
  have ht : (t - t < ttl) = True := by simp; omega
  simp only [ht, decide_True, if_true]
  rw [cacheFind, List.find?_cons]
  simp

/-- C9: a first detect_format call on an uncached path computes from the
file then on disk; a second call within the 300 s TTL returns exactly that
first result and leaves the cache untouched, whatever the file at the path
has become (the changed or deleted file is never consulted). -/
theorem detect_format_cache_hit
    (cfg : AudioProcessingConfig) (file1 file2 : Option FileEntry)
    (path : String) (t1 t2 : Nat) (c0 : Cache String)
    (h0 : cacheFind path c0 = none)
    (ht : t2 - t1 < 300) :
    (detect_format_cached cfg file1 path t1 c0).1 = detect_format cfg file1
      ∧ detect_format_cached cfg file2 path t2 (detect_format_cached cfg file1 path t1 c0).2
          = (detect_format cfg file1, (detect_format_cached cfg file1 path t1 c0).2) := by
  have hfirst : detect_format_cached cfg file1 path t1 c0
      = (detect_format cfg file1,
          cachePurge 300 t1 (cacheStore path (detect_format cfg file1) t1 c0)) := by
    rw [detect_format_cached, cache_result_call, h0]
  constructor
  · rw [hfirst]
  · rw [hfirst]
    rw [detect_format_cached, cache_result_call,
      cacheFind_store_purge path (detect_format cfg file1) t1 300 c0 (by omega)]
    simp [ht]

/-- C9 witness: the file is deleted between the two calls (detect_format
would now say "invalid"), yet the second call still answers with the first
result. -/
theorem detect_format_cache_hit_witness :
    (detect_format_cached {} (some zeroFile) "p" 10 []).1 = detect_format {} (some zeroFile)
      ∧ detect_format_cached {} none "p" 100 (detect_format_cached {} (some zeroFile) "p" 10 []).2
          = (detect_format {} (some zeroFile),
              (detect_format_cached {} (some zeroFile) "p" 10 []).2) :=
  detect_format_cache_hit {} (some zeroFile) none "p" 10 100 [] rfl (by decide)

end VoiceToText
